import Mathlib

/-!
Verification development for the Proof-of-Relay (PoR) subsystem of
pocket-core: a shallow embedding of `x/pocketcore/keeper/proof.go` and of
the network-identifier validation, together with theorems settling the
specification claims about them.

Bytes are modelled as `List Nat` (each entry a byte value), strings as
`List Char` where Go indexes/slices byte strings, machine integers as
`Int`/`Nat` with explicit range checks where Go's `strconv` enforces them,
and panics as `Option.none`.
-/

namespace PocketCore

/-! ## Byte and hex primitives -/

/-- Bytes of an ASCII string (Go `[]byte(s)`). -/
def strBytes (s : String) : List Nat :=
  s.data.map Char.toNat

/-- Lower-case hex digit for a nibble, as in Go `encoding/hex`. -/
def hexChar (n : Nat) : Char :=
  if n < 10 then Char.ofNat (48 + n) else Char.ofNat (87 + n)

/-- Go `hex.EncodeToString`: two lower-case hex digits per byte. -/
def hexEncodeChars (bs : List Nat) : List Char :=
  bs.foldr (fun b acc => hexChar ((b >>> 4) &&& 15) :: hexChar (b &&& 15) :: acc) []

/-- Is the character a hex digit (either case), as accepted by Go's
`strconv.ParseInt` in base 16 and by `hex.DecodeString`. -/
def isHexDigit (c : Char) : Bool :=
  (decide ('0' ≤ c) && decide (c ≤ '9')) ||
  (decide ('a' ≤ c) && decide (c ≤ 'f')) ||
  (decide ('A' ≤ c) && decide (c ≤ 'F'))

/-- Numeric value of a hex digit. -/
def hexVal (c : Char) : Nat :=
  if decide ('0' ≤ c) && decide (c ≤ '9') then c.toNat - 48
  else if decide ('a' ≤ c) && decide (c ≤ 'f') then c.toNat - 87
  else c.toNat - 55

/-! ## SHA3-256 (FIPS 202), modelled from the spec

The repository hashes with `pc.SHA3FromBytes` and `crypto.SHA3_256`, whose
definitions are not under `src/`. Modelled from the spec: the hash is
SHA3-256, implemented here as the standard Keccak-f[1600] sponge with rate
1088 bits and domain padding byte 0x06. Lanes are 64-bit words modelled as
`Nat` masked to `2^64`. -/

/-- Keccak round constants, 24 rounds (FIPS 202 values, written in
decimal; e.g. the third is 0x800000000000808A). -/
def keccakRC : List Nat :=
  [1, 32898, 9223372036854808714,
   9223372039002292224, 32907, 2147483649,
   9223372039002292353, 9223372036854808585, 138,
   136, 2147516425, 2147483658,
   2147516555, 9223372036854775947, 9223372036854808713,
   9223372036854808579, 9223372036854808578, 9223372036854775936,
   32778, 9223372039002259466, 9223372039002292353,
   9223372036854808704, 2147483649, 9223372039002292232]

/-- Keccak rotation offsets, indexed by `x + 5*y`, generated as in FIPS
202: starting from `(x, y) = (1, 0)`, lane `(x, y)` gets offset
`(t+1)(t+2)/2 mod 64` at step `t`, then `(x, y) ← (y, (2x+3y) mod 5)`;
lane `(0, 0)` keeps offset 0. -/
def keccakRotOff : List Nat :=
  ((List.range 24).foldl
    (fun s t =>
      let x := s.1
      let y := s.2.1
      (y, (2 * x + 3 * y) % 5, s.2.2.set (x + 5 * y) ((t + 1) * (t + 2) / 2 % 64)))
    (1, 0, List.replicate 25 0)).2.2

/-- Rotate a 64-bit lane left by `k`. -/
def rotl64 (n k : Nat) : Nat :=
  ((n <<< (k % 64)) ||| (n >>> ((64 - k % 64) % 64))) &&& (2 ^ 64 - 1)

/-- Lane lookup in the flat 25-lane state. -/
def lget (s : List Nat) (i : Nat) : Nat :=
  s.getD i 0

/-- Keccak θ step. -/
def keccakTheta (s : List Nat) : List Nat :=
  let c := (List.range 5).map fun x =>
    lget s x ^^^ lget s (x + 5) ^^^ lget s (x + 10) ^^^ lget s (x + 15) ^^^ lget s (x + 20)
  let d := (List.range 5).map fun x =>
    lget c ((x + 4) % 5) ^^^ rotl64 (lget c ((x + 1) % 5)) 1
  (List.range 25).map fun i => lget s i ^^^ lget d (i % 5)

/-- Keccak ρ and π steps combined: the new lane `(x, y)` is the lane
`((x + 3y) mod 5, x)` rotated by its offset. -/
def keccakRhoPi (s : List Nat) : List Nat :=
  (List.range 25).map fun i =>
    let x := i % 5
    let y := i / 5
    let j := (x + 3 * y) % 5 + 5 * x
    rotl64 (lget s j) (lget keccakRotOff j)

/-- Keccak χ step. -/
def keccakChi (s : List Nat) : List Nat :=
  (List.range 25).map fun i =>
    let x := i % 5
    let y := i / 5
    lget s i ^^^ ((lget s ((x + 1) % 5 + 5 * y) ^^^ (2 ^ 64 - 1)) &&& lget s ((x + 2) % 5 + 5 * y))

/-- Keccak ι step: xor the round constant into lane 0. -/
def keccakIota (rc : Nat) (s : List Nat) : List Nat :=
  match s with
  | [] => []
  | a :: rest => (a ^^^ rc) :: rest

/-- The Keccak-f[1600] permutation: 24 rounds of θ, ρπ, χ, ι. -/
def keccakF (s : List Nat) : List Nat :=
  keccakRC.foldl (fun st rc => keccakIota rc (keccakChi (keccakRhoPi (keccakTheta st)))) s

/-- Little-endian 64-bit lane from up to 8 bytes. -/
def leLane (bs : List Nat) : Nat :=
  bs.foldr (fun b acc => acc * 256 + b) 0

/-- Absorb one 136-byte block into the state and permute. -/
def absorbBlock (st : List Nat) (block : List Nat) : List Nat :=
  let bl := (List.range 17).map fun i => leLane ((block.drop (8 * i)).take 8)
  keccakF ((List.range 25).map fun i => if i < 17 then lget st i ^^^ lget bl i else lget st i)

/-- Absorb `n` consecutive 136-byte blocks. -/
def absorbGo (st : List Nat) : Nat → List Nat → List Nat
  | 0, _ => st
  | n + 1, bs => absorbGo (absorbBlock st (bs.take 136)) n (bs.drop 136)

/-- SHA3 pad10*1 with domain byte 0x06 to a multiple of the 136-byte rate. -/
def sha3pad (msg : List Nat) : List Nat :=
  let padLen := 136 - msg.length % 136
  if padLen = 1 then msg ++ [0x86]
  else msg ++ [0x06] ++ List.replicate (padLen - 2) 0 ++ [0x80]

/-- SHA3-256 digest (32 bytes) of a byte string. -/
def sha3_256 (msg : List Nat) : List Nat :=
  let padded := sha3pad msg
  let st := absorbGo (List.replicate 25 0) (padded.length / 136) padded
  (List.range 32).map fun i => (lget st (i / 8) >>> (8 * (i % 8))) &&& 255

/-! ## Session header and parameters -/

/-- The session header triple (`pc.Header`): application public key,
external chain identifier, and the session's starting block height. -/
structure Header where
  applicationPubKey : String
  chain : String
  sessionBlockHeight : Int
deriving DecidableEq

/-- Modelled from the spec: the canonical binary serialization of a session
header (fixed field order). `Header.HashString` lives in the types package,
which is not under `src/`; its exact byte layout is immaterial below because
`marshalPseudorandomGenerator` discards its argument. -/
def headerBytes (h : Header) : List Nat :=
  strBytes h.applicationPubKey ++ [0] ++ strBytes h.chain ++ [0] ++
    (List.range 8).map fun i => ((h.sessionBlockHeight.toNat) >>> (8 * i)) &&& 255

/-- Modelled from the spec: the session header's canonical hash string, hex
of SHA3-256 over the canonical serialization. -/
def headerHashStringChars (h : Header) : List Char :=
  hexEncodeChars (sha3_256 (headerBytes h))

/-- The height-indexed chain/parameter context consumed by the keeper:
session frequency, proof waiting period, claim expiration, the
governance-controlled supported-chain predicate (height-indexed, as read
through `ctx.WithBlockHeight`), and the block hash available at each
height (`ctx.BlockHeader().GetLastBlockId().Hash`). -/
structure Config where
  sessionFrequency : Int
  proofWaitingPeriod : Int
  unverifiedProofExpiration : Int
  supported : Int → String → Bool
  blockHashAt : Int → List Nat

/-! ## GeneratePseudoRandomProof (proof.go lines 41-74) -/

/-- Go `strconv.ParseInt(s, 16, 64)`: rejects the empty string and
non-hex characters, and returns a range error when the parsed value
exceeds `2^63 - 1` (the caller panics on any error, hence `none`). The
digest substrings parsed here never carry a sign. -/
def parseInt64HexChars (cs : List Char) : Option Int :=
  if cs.isEmpty then none
  else if cs.all isHexDigit then
    let v := cs.foldl (fun a c => a * 16 + hexVal c) 0
    if v ≤ 2 ^ 63 - 1 then some (Int.ofNat v) else none
  else none

/-- Go `json.Marshal` applied to `pseudorandomGenerator{blockHash, header}`:
both struct fields are unexported (lower-case), and `encoding/json`
silently skips unexported fields, so the marshalled bytes are always the
two-byte empty object `\x7b\x7d` and the error is always nil, whatever the
field values are. -/
def marshalPseudorandomGenerator (_blockHashField _headerField : List Char) : List Nat :=
  strBytes "\x7b\x7d"

/-- The scan in `GeneratePseudoRandomProof`: for each `i` in the index
list, parse `proofsHash[i:]` as a base-16 int64 (panicking on error, i.e.
`none`), and return the first parsed value smaller than `totalRelays`;
when the loop is exhausted, return 0. -/
def prLoop (totalRelays : Int) (proofsHash : List Char) : List Nat → Option Int
  | [] => some 0
  | i :: rest =>
    match parseInt64HexChars (proofsHash.drop i) with
    | none => none
    | some res => if totalRelays > res then some res else prLoop totalRelays proofsHash rest

/-- `Keeper.GeneratePseudoRandomProof`: fetch the block hash at
`sessionBlockHeight + proofWaitingPeriod * sessionFrequency`, marshal the
`pseudorandomGenerator` pair, hash it with SHA3-256, hex-encode, keep the
first 16 characters, and scan for the first suffix parsing below
`totalRelays`. `none` models a panic. -/
def generatePseudoRandomProof (cfg : Config) (totalRelays : Int) (header : Header) : Option Int :=
  let proofHeight := header.sessionBlockHeight + cfg.proofWaitingPeriod * cfg.sessionFrequency
  let payload := marshalPseudorandomGenerator
    (hexEncodeChars (cfg.blockHashAt proofHeight)) (headerHashStringChars header)
  let proofsHash := (hexEncodeChars (sha3_256 payload)).take 16
  prLoop totalRelays proofsHash (List.range 16)

/-! ## Tokens, relay proofs (leaves) and signatures

`pc.Proof`, `Token.Validate` and `pc.SignatureVerification` live in the
types package, not under `src/`; they are modelled from the spec with a
symbolic signature scheme: a signature verifies exactly when it is the
canonical signature of the signer on the message. -/

/-- The application authentication token
`(app_pubkey, client_pubkey, expiration, signature_by_app)`. -/
structure Token where
  applicationPubKey : String
  clientPubKey : String
  expiration : Int
  applicationSignature : String
deriving DecidableEq

/-- Modelled from the spec: symbolic signatures — the canonical signature
of `pubKey` on a message. -/
def mkSignature (pubKey msg : String) : String :=
  pubKey ++ ":" ++ msg

/-- Modelled from the spec: `pc.SignatureVerification` succeeds exactly on
the signer's canonical signature over the message. -/
def signatureVerification (pubKey msg sig : String) : Bool :=
  sig == mkSignature pubKey msg

/-- Modelled from the spec: the token's canonical form (the part signed by
the application). -/
def tokenBytes (t : Token) : List Nat :=
  strBytes t.applicationPubKey ++ [0] ++ strBytes t.clientPubKey ++ [0] ++
    (List.range 8).map fun i => (t.expiration.toNat >>> (8 * i)) &&& 255

/-- The error kinds surfaced by proof verification (§7): the four failure
steps of `ValidateProof`. -/
inductive PCError where
  | invalidProofs
  | invalidMerkleVerify
  | invalidToken
  | invalidSignature
deriving DecidableEq

/-- Modelled from the spec: `Token.Validate` checks the application's
signature over the token's canonical form (it receives no chain context,
so no staking state enters the check). -/
def tokenValidate (t : Token) : Except PCError Unit :=
  if signatureVerification t.applicationPubKey (String.mk (hexEncodeChars (tokenBytes t)))
      t.applicationSignature then .ok () else .error .invalidToken

/-- A relay proof — one leaf of the session's evidence (`pc.Proof`). -/
structure RelayProof where
  index : Int
  token : Token
  signature : String
  payload : String
deriving DecidableEq

/-- Modelled from the spec: the leaf's canonical serialization excluding
the signature field. -/
def relayProofBytes (p : RelayProof) : List Nat :=
  strBytes p.payload ++ [0] ++ tokenBytes p.token ++
    (List.range 8).map fun i => (p.index.toNat >>> (8 * i)) &&& 255

/-- The leaf's hash: SHA3-256 over its canonical serialization. -/
def relayProofHash (p : RelayProof) : List Nat :=
  sha3_256 (relayProofBytes p)

/-- The leaf's hash as a hex string (`HashString`), the message the client
signs. -/
def relayProofHashString (p : RelayProof) : String :=
  String.mk (hexEncodeChars (relayProofHash p))

/-! ## Merkle scheme (spec §4.2)

The Merkle tree library (`github.com/pokt-network/merkle`) is not under
`src/`. Modelled from the spec: a binary SHA3-256 tree, leaves hashed with
domain tag 0x00 and internal nodes with 0x01, odd levels duplicating the
last node. A branch is an ordered list of (sibling hash, direction) with
direction true when the sibling sits on the right. -/

/-- Leaf hashing with domain tag 0x00. -/
def hashLeaf (bs : List Nat) : List Nat :=
  sha3_256 (0 :: bs)

/-- Internal-node hashing with domain tag 0x01. -/
def hashNode (a b : List Nat) : List Nat :=
  sha3_256 (1 :: (a ++ b))

/-- Hash one level pairwise, duplicating a trailing odd node. -/
def merklePairs : List (List Nat) → List (List Nat)
  | a :: b :: rest => hashNode a b :: merklePairs rest
  | [a] => [hashNode a a]
  | [] => []

/-- Fold levels up to the root (fuel-bounded; the fuel is the leaf count,
which bounds the tree height). -/
def merkleRootGo : Nat → List (List Nat) → List Nat
  | _, [x] => x
  | 0, _ => []
  | fuel + 1, ls => merkleRootGo fuel (merklePairs ls)

/-- Merkle branch verification: fold the leaf hash upward, placing each
sibling on its indicated side, and compare with the root. -/
def merkleVerifyBranch (branch : List (List Nat × Bool)) (root leafHash : List Nat) : Bool :=
  branch.foldl (fun cur step => if step.2 then hashNode cur step.1 else hashNode step.1 cur)
    leafHash == root

/-! ## On-chain messages -/

/-- The claim commit message (`pc.MsgProof` in this revision's naming):
header, committed relay count, and Merkle root. -/
structure MsgProof where
  header : Header
  totalRelays : Int
  root : List Nat
deriving DecidableEq

/-- The reveal message (`pc.MsgClaimProof` in this revision's naming):
the Merkle branch and the revealed leaf. -/
structure MsgClaimProof where
  merkleProof : List (List Nat × Bool)
  leafNode : RelayProof
deriving DecidableEq

/-! ## ValidateProof (proof.go lines 17-38) -/

/-- `Keeper.ValidateProof`: recompute the required pseudorandom index
(panicking if the generator does, hence the outer `Option`), compare it to
the revealed leaf's index, verify the Merkle branch against the committed
root, validate the token, and verify the client's signature over the
leaf's hash string. Each failure step yields its distinct error kind. -/
def validateProof (cfg : Config) (proof : MsgProof) (claim : MsgClaimProof) :
    Option (Except PCError Unit) :=
  match generatePseudoRandomProof cfg proof.totalRelays proof.header with
  | none => none
  | some reqProof =>
    if reqProof ≠ claim.leafNode.index then some (.error .invalidProofs)
    else if ¬ merkleVerifyBranch claim.merkleProof proof.root (relayProofHash claim.leafNode)
    then some (.error .invalidMerkleVerify)
    else
      match tokenValidate claim.leafNode.token with
      | .error e => some (.error e)
      | .ok _ =>
        if signatureVerification claim.leafNode.token.clientPubKey
            (relayProofHashString claim.leafNode) claim.leafNode.signature
        then some (.ok ()) else some (.error .invalidSignature)

/-! ## The in-memory evidence store (spec §4.1)

`pc.GetAllProofs` and its map live in the types package, not under
`src/`. Modelled from the spec: a map from session header to the ordered
evidence list with its relay count; iterated here as a list snapshot (Go
map iteration order is unspecified; the theorems below do not depend on
the order). -/

/-- One evidence-store entry: the session header, the accumulated relay
count, and the ordered leaves. -/
structure Evidence where
  header : Header
  totalRelays : Int
  leaves : List RelayProof
deriving DecidableEq

/-- Modelled from the spec: `get_root` — the Merkle root of the evidence
list, failing (`NoEvidence`) when the list is empty; the caller in
`SendUnverifiedProofs` panics on that failure. -/
def getMerkleRoot (e : Evidence) : Option (List Nat) :=
  if e.leaves.isEmpty then none
  else some (merkleRootGo e.leaves.length (e.leaves.map fun p => hashLeaf (relayProofBytes p)))

/-- A broadcast claim transaction: header, relay count and root, as handed
to `proofTx`. -/
structure ClaimTx where
  header : Header
  totalRelays : Int
  root : List Nat
deriving DecidableEq

/-! ## KV-store reads (proof.go lines 146-206) -/

/-- `Keeper.GetUnverfiedProof` for the node's own address: look the header
up among the node's stored claim commits (the KV store modelled as the
list of decoded values; this call site passes a pointer, so decoding is
the identity). -/
def getUnverifiedProof (kv : List MsgProof) (h : Header) : Option MsgProof :=
  kv.find? fun m => decide (m.header = h)

/-! ## SendUnverifiedProofs — the auto-claim pass (proof.go lines 76-103) -/

/-- The loop of `SendUnverifiedProofs` over the evidence snapshot: delete
sessions on unsupported chains when their relay count is positive, skip
sessions whose claim is already on-chain, and otherwise broadcast a claim
transaction with the store's root (panicking, `none`, if the root
computation fails). Broadcasting writes nothing to the KV store. -/
def sendUnverifiedProofsGo (cfg : Config) (kv : List MsgProof) :
    List Evidence → List Evidence → List ClaimTx → Option (List Evidence × List ClaimTx)
  | [], store, txs => some (store, txs)
  | e :: rest, store, txs =>
    if !(cfg.supported e.header.sessionBlockHeight e.header.chain) && decide (e.totalRelays > 0)
    then sendUnverifiedProofsGo cfg kv rest (store.filter fun x => decide (x.header ≠ e.header)) txs
    else if (getUnverifiedProof kv e.header).isSome then
      sendUnverifiedProofsGo cfg kv rest store txs
    else
      match getMerkleRoot e with
      | none => none
      | some root => sendUnverifiedProofsGo cfg kv rest store (txs ++ [⟨e.header, e.totalRelays, root⟩])

/-- `Keeper.SendUnverifiedProofs` at one height: run the loop over a
snapshot of the in-memory store, returning the final store and the
broadcast claim transactions (`none` models a panic). -/
def sendUnverifiedProofs (cfg : Config) (kv : List MsgProof) (store : List Evidence) :
    Option (List Evidence × List ClaimTx) :=
  sendUnverifiedProofsGo cfg kv store store []

/-- Two consecutive invocations of the auto-claim pass at the same height
over the same chain state: the second run starts from the store the first
run left behind, and the broadcasts accumulate. -/
def sendUnverifiedProofsTwice (cfg : Config) (kv : List MsgProof) (store : List Evidence) :
    Option (List Evidence × List ClaimTx) :=
  match sendUnverifiedProofs cfg kv store with
  | none => none
  | some (st1, txs1) =>
    match sendUnverifiedProofs cfg kv st1 with
    | none => none
    | some (st2, txs2) => some (st2, txs1 ++ txs2)

/-! ## Maturity, the auto-proof pass, and the expiry sweep
(proof.go lines 105-144 and 208-246) -/

/-- `Keeper.ProofIsReadyToClaim`: the claim is mature once the current
height has reached `sessionBlockHeight + proofWaitingPeriod *
sessionFrequency`. -/
def proofIsReadyToClaim (cfg : Config) (height sessionBlockHeight : Int) : Bool :=
  let waitingPeriodInBlocks := cfg.proofWaitingPeriod * cfg.sessionFrequency
  if height ≥ waitingPeriodInBlocks + sessionBlockHeight then true else false

/-- The zero value of `MsgProof`, Go's `pc.MsgProof{}`. -/
def msgProofZero : MsgProof :=
  ⟨⟨"", "", 0⟩, 0, []⟩

/-- go-amino's `UnmarshalBinaryBare` first checks that its target argument
is a pointer and panics otherwise (`Unmarshal expects a pointer`). The
iterator loops in `GetMatureUnverifiedProofs` (line 215) and
`DeleteExpiredUnverifiedProofs` (line 230) pass the message variable by
value — `msg`, not `&msg` as the other call sites do — so the decode
panics on the first stored entry; even under a decoder that tolerated it,
Go value semantics keep the decoded fields from ever reaching the
caller's variable. `none` models the panic. -/
def mustUnmarshalBinaryBareByValue (_stored _msg : MsgProof) : Option MsgProof :=
  none

/-- The loop of `GetMatureUnverifiedProofs`: decode each stored claim (the
call passes the message by value) and collect those whose session is
mature at the current height. -/
def getMatureUnverifiedProofsGo (cfg : Config) (height : Int) :
    List MsgProof → List MsgProof → Option (List MsgProof)
  | [], acc => some acc
  | v :: rest, acc =>
    match mustUnmarshalBinaryBareByValue v msgProofZero with
    | none => none
    | some msg =>
      if proofIsReadyToClaim cfg height msg.header.sessionBlockHeight then
        getMatureUnverifiedProofsGo cfg height rest (acc ++ [msg])
      else getMatureUnverifiedProofsGo cfg height rest acc

/-- `Keeper.GetMatureUnverifiedProofs` over the node's stored claim
commits (`none` models a panic). -/
def getMatureUnverifiedProofs (cfg : Config) (height : Int) (kv : List MsgProof) :
    Option (List MsgProof) :=
  getMatureUnverifiedProofsGo cfg height kv []

/-- The loop of `DeleteExpiredUnverifiedProofs`: decode each stored claim
(the call passes the message by value) and delete it when at least
`unverifiedProofExpiration` sessions have passed since its session block.
The division is Go's truncated `int64` division. The source reads the
parameters through a context pinned at the claim's session height; the
parameters are constants of `cfg` here. -/
def deleteExpiredUnverifiedProofsGo (cfg : Config) (height : Int) :
    List MsgProof → Option (List MsgProof)
  | [] => some []
  | v :: rest =>
    match mustUnmarshalBinaryBareByValue v msgProofZero with
    | none => none
    | some msg =>
      match deleteExpiredUnverifiedProofsGo cfg height rest with
      | none => none
      | some rest2 =>
        if (height - msg.header.sessionBlockHeight).tdiv cfg.sessionFrequency ≥
            cfg.unverifiedProofExpiration
        then some rest2 else some (v :: rest2)

/-- `Keeper.DeleteExpiredUnverifiedProofs` over all stored claim commits,
returning the store left after the sweep (`none` models a panic). -/
def deleteExpiredUnverifiedProofs (cfg : Config) (height : Int) (kv : List MsgProof) :
    Option (List MsgProof) :=
  deleteExpiredUnverifiedProofsGo cfg height kv

/-- Modelled from the spec: extraction of the Merkle branch for a leaf
index (`GetMerkleProof` of the tree library) — sibling of index `i` at
each level is `i xor 1` (after duplicating a trailing odd node), with the
sibling on the right exactly when `i` is even. -/
def merkleBranchGo : Nat → List (List Nat) → Nat → List (List Nat × Bool)
  | 0, _, _ => []
  | fuel + 1, level, idx =>
    if level.length ≤ 1 then []
    else
      let lvl := if level.length % 2 = 1 then level ++ [level.getD (level.length - 1) []] else level
      (lvl.getD (idx ^^^ 1) [], decide (idx % 2 = 0)) :: merkleBranchGo fuel (merklePairs lvl) (idx / 2)

/-- The loop of `ClaimProofs` over the mature claims: a claim already
verified on-chain has its in-memory evidence deleted; otherwise the
required pseudorandom index is generated (which panics, see
`generatePseudoRandomProof_eq_none`), the branch and leaf are fetched from
the local cache, and the reveal transaction is broadcast. -/
def claimProofsGo (cfg : Config) (kvVerified : List Header) :
    List MsgProof → List Evidence → List MsgClaimProof →
    Option (List Evidence × List MsgClaimProof)
  | [], store, txs => some (store, txs)
  | proof :: rest, store, txs =>
    if kvVerified.contains proof.header then
      claimProofsGo cfg kvVerified rest (store.filter fun x => decide (x.header ≠ proof.header)) txs
    else
      match generatePseudoRandomProof cfg proof.totalRelays proof.header with
      | none => none
      | some reqProof =>
        match store.find? fun x => decide (x.header = proof.header) with
        | none => none
        | some ev =>
          let branch := merkleBranchGo ev.leaves.length
            (ev.leaves.map fun p => hashLeaf (relayProofBytes p)) reqProof.toNat
          match ev.leaves.get? reqProof.toNat with
          | none => none
          | some leaf => claimProofsGo cfg kvVerified rest store (txs ++ [⟨branch, leaf⟩])

/-- `Keeper.ClaimProofs` at one height: select the mature claim commits
and run the reveal loop (`none` models a panic). -/
def claimProofs (cfg : Config) (height : Int) (kvUnverified : List MsgProof)
    (kvVerified : List Header) (store : List Evidence) :
    Option (List Evidence × List MsgClaimProof) :=
  match getMatureUnverifiedProofs cfg height kvUnverified with
  | none => none
  | some mature => claimProofsGo cfg kvVerified mature store []

/-! ## ValidateNetworkIdentifier (src/unnamed/part_000 lines 678-697) -/

/-- The `NetworkIdentifierLength` constant. -/
def networkIdentifierLength : Nat := 2

/-- Go `hex.DecodeString` on the character sequence: two hex digits (either
case) per byte; an odd tail or a non-hex character is an error. -/
def hexDecodeChars : List Char → Option (List Nat)
  | [] => some []
  | [_] => none
  | a :: b :: rest =>
    if isHexDigit a && isHexDigit b then
      match hexDecodeChars rest with
      | none => none
      | some bs => some ((hexVal a * 16 + hexVal b) :: bs)
    else none

/-- The error kinds of network-identifier validation. -/
inductive NetIdError where
  | invalidHex
  | emptyNetId
  | tooLong
deriving DecidableEq

/-- `ValidateNetworkIdentifier`: hex-decode the chain identifier, reject a
decode failure, an empty result, or a result longer than
`networkIdentifierLength` bytes. -/
def validateNetworkIdentifier (chain : String) : Except NetIdError Unit :=
  match hexDecodeChars chain.data with
  | none => .error .invalidHex
  | some h =>
    if h.length = 0 then .error .emptyNetId
    else if h.length > networkIdentifierLength then .error .tooLong
    else .ok ()

/-- The spec-side characterization of a valid chain identifier, following
the spec's words: a valid hexadecimal string decoding to between 1 and 2
bytes, i.e. all characters are hex digits and the length is 2 or 4
characters. -/
def specChainIdValid (s : String) : Bool :=
  s.data.all isHexDigit && (s.data.length == 2 || s.data.length == 4)

/-! ## The spec's reference pseudorandom-challenge algorithm (§4.3)

Written from the spec's words, for comparison with
`generatePseudoRandomProof`: the payload is a canonical serialization of
the pair `(block_hash_hex, header_hash_hex)` — fixed field order, here the
two hex strings separated by a byte 44; the concrete separator is
immaterial to the comparison below — hashed with SHA3-256; the first 16
hex characters are scanned, each suffix parsed as an (unbounded) base-16
integer, returning the first value below `total_relays`, else 0. -/

/-- A canonical serialization of the pair of hex strings (fixed field
order). -/
def specPairBytes (blockHashHex headerHashHex : List Char) : List Nat :=
  blockHashHex.map Char.toNat ++ [44] ++ headerHashHex.map Char.toNat

/-- Parse a hex-digit string as an unbounded base-16 integer (the spec
imposes no bit width). -/
def specParseHex (cs : List Char) : Int :=
  Int.ofNat (cs.foldl (fun a c => a * 16 + hexVal c) 0)

/-- The spec's scan: first suffix value below `totalRelays`, else 0. -/
def specChallengeLoop (totalRelays : Int) (s : List Char) : List Nat → Int
  | [] => 0
  | i :: rest =>
    let r := specParseHex (s.drop i)
    if totalRelays > r then r else specChallengeLoop totalRelays s rest

/-- The spec's reference pseudorandom-challenge derivation. -/
def specPseudorandomChallenge (cfg : Config) (totalRelays : Int) (header : Header) : Int :=
  let proofHeight := header.sessionBlockHeight + cfg.proofWaitingPeriod * cfg.sessionFrequency
  let payload := specPairBytes (hexEncodeChars (cfg.blockHashAt proofHeight))
    (headerHashStringChars header)
  let s := (hexEncodeChars (sha3_256 payload)).take 16
  specChallengeLoop totalRelays s (List.range 16)

/-! ## Concrete fixtures used by the theorems -/

/-- Default parameters (session frequency 25, proof waiting period 3). -/
def cfgDefault : Config :=
  ⟨25, 3, 240, fun _ _ => true, fun _ => []⟩

/-- Parameters under which no chain is supported. -/
def cfgAllUnsupported : Config :=
  ⟨25, 3, 240, fun _ _ => false, fun _ => []⟩

/-- Parameters with a nonempty block hash, for the generator fixtures. -/
def cfgC1 : Config :=
  ⟨25, 3, 240, fun _ _ => true, fun _ => [171]⟩

/-- Two parameter sets agreeing on frequency, waiting period and block
hashes but differing in the supported-chain set. -/
def cfgC7a : Config :=
  ⟨25, 3, 240, fun _ _ => true, fun _ => [1]⟩

/-- See `cfgC7a`. -/
def cfgC7b : Config :=
  ⟨25, 3, 240, fun _ _ => false, fun _ => [1]⟩

/-- A sample token. -/
def tokenA : Token :=
  ⟨"app", "client", 100, "sig"⟩

/-- A sample relay-proof leaf. -/
def leafA : RelayProof :=
  ⟨0, tokenA, "csig", "relay"⟩

/-- Session header fixtures. -/
def hdrC1 : Header := ⟨"a1", "0001", 25⟩

/-- See `hdrC1`. -/
def hdrC3 : Header := ⟨"a3", "00aa", 50⟩

/-- See `hdrC1`. -/
def hdrC3w : Header := ⟨"a3w", "00ab", 75⟩

/-- See `hdrC1`. -/
def hdrC6 : Header := ⟨"a6", "0006", 125⟩

/-- See `hdrC1`. -/
def hdrC7 : Header := ⟨"a7", "0007", 150⟩

/-- An evidence entry for an unsupported chain with zero relays. -/
def evC3 : Evidence := ⟨hdrC3, 0, []⟩

/-- A chain state whose unverified-claim store already holds `hdrC3`. -/
def kvC3 : List MsgProof := [⟨hdrC3, 0, []⟩]

/-- An evidence entry for an unsupported chain with one relay. -/
def evC3w : Evidence := ⟨hdrC3w, 1, [leafA]⟩

/-- An evidence entry for a supported session with one relay, not yet
claimed on-chain. -/
def evC6 : Evidence := ⟨hdrC6, 1, [leafA]⟩

/-- A reveal message fixture. -/
def claimMsgC2 : MsgClaimProof := ⟨[], ⟨0, tokenA, "csig", "relay"⟩⟩

/-- A claim commit fixture for `ValidateProof`. -/
def proofMsgC2 : MsgProof := ⟨⟨"a2", "0002", 50⟩, 5, []⟩

/-- A stored claim commit whose session (block 100) is mature at height
175 under `cfgDefault`. -/
def msgC4 : MsgProof := ⟨⟨"a4", "0004", 100⟩, 7, []⟩

/-- A stored claim commit whose session (block 100) is long expired at
height 10000 under `cfgDefault`. -/
def msgC5 : MsgProof := ⟨⟨"a5", "0005", 100⟩, 3, []⟩

/-- The auto-claim pass behaviour the spec asserts for an unsupported
session: evidence deleted and no claim broadcast — `False` when the pass
does not even complete. -/
def evidenceDroppedAndUnclaimed (hd : Header) :
    Option (List Evidence × List ClaimTx) → Prop
  | none => False
  | some (st, txs) => (∀ x ∈ st, x.header ≠ hd) ∧ (∀ t ∈ txs, t.header ≠ hd)

/-! ## Helper theorems -/

set_option maxRecDepth 1000000 in
/-- The marshalled payload is the constant `\x7b\x7d`, whose SHA3-256 hex
digest starts `840eb7aa2a9935de...`; the first loop iteration therefore
parses a 16-hex-digit value of `0x840eb7aa2a9935de = 9515745004167443934 >
2^63 - 1`, `strconv.ParseInt` reports a range error, and the function
panics — on every input. -/
theorem generatePseudoRandomProof_eq_none (cfg : Config) (totalRelays : Int) (header : Header) :
    generatePseudoRandomProof cfg totalRelays header = none := by
  show prLoop totalRelays ((hexEncodeChars (sha3_256 (strBytes "\x7b\x7d"))).take 16)
    (List.range 16) = none
  rfl

/-- A successful hex decode consumes two characters per byte and only hex
digits. -/
theorem hexDecodeChars_sound : ∀ (cs : List Char) (bs : List Nat),
    hexDecodeChars cs = some bs → cs.length = 2 * bs.length ∧ cs.all isHexDigit = true
  | [], bs, h => by
    simp only [hexDecodeChars, Option.some.injEq] at h
    subst h
    simp
  | [a], bs, h => by
    simp [hexDecodeChars] at h
  | a :: b :: rest, bs, h => by
    simp only [hexDecodeChars] at h
    by_cases hd : (isHexDigit a && isHexDigit b) = true
    · rw [if_pos hd] at h
      cases hrec : hexDecodeChars rest with
      | none => rw [hrec] at h; simp at h
      | some bs2 =>
        rw [hrec] at h
        simp only [Option.some.injEq] at h
        subst h
        obtain ⟨hlen, hall⟩ := hexDecodeChars_sound rest bs2 hrec
        refine ⟨by simp [hlen]; omega, ?_⟩
        simp only [List.all_cons, Bool.and_eq_true] at hd ⊢
        exact ⟨hd.1, hd.2, hall⟩
    · rw [if_neg hd] at h
      simp at h

/-- Hex decoding succeeds on any even-length string of hex digits. -/
theorem hexDecodeChars_complete : ∀ (cs : List Char),
    cs.all isHexDigit = true → cs.length % 2 = 0 → (hexDecodeChars cs).isSome = true
  | [], _, _ => by simp [hexDecodeChars]
  | [a], _, hlen => by simp at hlen
  | a :: b :: rest, hall, hlen => by
    simp only [List.all_cons, Bool.and_eq_true] at hall
    obtain ⟨ha, hb, hrest⟩ := hall
    have hlen2 : rest.length % 2 = 0 := by
      simp only [List.length_cons] at hlen
      omega
    have h2 := hexDecodeChars_complete rest hrest hlen2
    simp only [hexDecodeChars]
    rw [if_pos (by simp [ha, hb])]
    cases h3 : hexDecodeChars rest with
    | none => rw [h3] at h2; simp at h2
    | some bs => simp

/-- If no iterated entry, no stored entry and no accumulated transaction
carries the header `hd`, the auto-claim loop's final store and transaction
list avoid `hd` as well: the loop only removes store entries and only
appends transactions carrying headers of iterated entries. -/
theorem sendGo_avoid (cfg : Config) (kv : List MsgProof) (hd : Header) :
    ∀ (iter store : List Evidence) (txs : List ClaimTx) (st2 : List Evidence) (txs2 : List ClaimTx),
    (∀ e ∈ iter, e.header ≠ hd) → (∀ x ∈ store, x.header ≠ hd) → (∀ t ∈ txs, t.header ≠ hd) →
    sendUnverifiedProofsGo cfg kv iter store txs = some (st2, txs2) →
    (∀ x ∈ st2, x.header ≠ hd) ∧ (∀ t ∈ txs2, t.header ≠ hd)
  | [], store, txs, st2, txs2 => by
    intro _ hstore htxs hrun
    simp only [sendUnverifiedProofsGo, Option.some.injEq, Prod.mk.injEq] at hrun
    obtain ⟨h1, h2⟩ := hrun
    subst h1; subst h2
    exact ⟨hstore, htxs⟩
  | e :: rest, store, txs, st2, txs2 => by
    intro hiter hstore htxs hrun
    have hiter_rest : ∀ x ∈ rest, x.header ≠ hd := fun x hx => hiter x (List.mem_cons_of_mem _ hx)
    have he : e.header ≠ hd := hiter e (List.mem_cons_self _ _)
    simp only [sendUnverifiedProofsGo] at hrun
    by_cases h1 :
        (!cfg.supported e.header.sessionBlockHeight e.header.chain && decide (e.totalRelays > 0)) = true
    · rw [if_pos h1] at hrun
      exact sendGo_avoid cfg kv hd rest _ txs st2 txs2 hiter_rest
        (fun x hx => hstore x (List.mem_of_mem_filter hx)) htxs hrun
    · rw [if_neg h1] at hrun
      by_cases h2 : (getUnverifiedProof kv e.header).isSome = true
      · rw [if_pos h2] at hrun
        exact sendGo_avoid cfg kv hd rest store txs st2 txs2 hiter_rest hstore htxs hrun
      · rw [if_neg h2] at hrun
        cases h3 : getMerkleRoot e with
        | none => rw [h3] at hrun; exact absurd hrun (by simp)
        | some root =>
          rw [h3] at hrun
          refine sendGo_avoid cfg kv hd rest store (txs ++ [⟨e.header, e.totalRelays, root⟩])
            st2 txs2 hiter_rest hstore ?_ hrun
          intro t ht
          rcases List.mem_append.1 ht with h4 | h4
          · exact htxs t h4
          · simp only [List.mem_singleton] at h4
            rw [h4]
            exact he

/-- When an iterated evidence entry `e` sits on an unsupported chain and
has a positive relay count, and the iterated headers are distinct, a
completed auto-claim loop ends with no store entry and no transaction
carrying `e.header`. -/
theorem sendGo_deletes (cfg : Config) (kv : List MsgProof) :
    ∀ (iter store : List Evidence) (txs : List ClaimTx) (st2 : List Evidence)
      (txs2 : List ClaimTx) (e : Evidence),
    e ∈ iter → (iter.map Evidence.header).Nodup →
    cfg.supported e.header.sessionBlockHeight e.header.chain = false → 0 < e.totalRelays →
    (∀ t ∈ txs, t.header ≠ e.header) →
    sendUnverifiedProofsGo cfg kv iter store txs = some (st2, txs2) →
    (∀ x ∈ st2, x.header ≠ e.header) ∧ (∀ t ∈ txs2, t.header ≠ e.header)
  | [], _, _, _, _, e => by
    intro he
    exact absurd he (List.not_mem_nil e)
  | f :: rest, store, txs, st2, txs2, e => by
    intro he hnd hsup hpos htxs hrun
    have hndrest : (rest.map Evidence.header).Nodup := (List.nodup_cons.1 hnd).2
    have hfnot : f.header ∉ rest.map Evidence.header := (List.nodup_cons.1 hnd).1
    simp only [sendUnverifiedProofsGo] at hrun
    rcases List.mem_cons.1 he with rfl | hmem
    · have hcond :
          (!cfg.supported e.header.sessionBlockHeight e.header.chain &&
            decide (e.totalRelays > 0)) = true := by
        simp [hsup, hpos]
      rw [if_pos hcond] at hrun
      refine sendGo_avoid cfg kv e.header rest _ txs st2 txs2 ?_ ?_ htxs hrun
      · intro x hx hxh
        exact hfnot (by rw [← hxh]; exact List.mem_map_of_mem Evidence.header hx)
      · intro x hx
        have := List.of_mem_filter hx
        simpa using this
    · have hfe : f.header ≠ e.header := by
        intro hfeq
        exact hfnot (hfeq ▸ List.mem_map_of_mem Evidence.header hmem)
      by_cases h1 :
          (!cfg.supported f.header.sessionBlockHeight f.header.chain && decide (f.totalRelays > 0)) = true
      · rw [if_pos h1] at hrun
        exact sendGo_deletes cfg kv rest _ txs st2 txs2 e hmem hndrest hsup hpos htxs hrun
      · rw [if_neg h1] at hrun
        by_cases h2 : (getUnverifiedProof kv f.header).isSome = true
        · rw [if_pos h2] at hrun
          exact sendGo_deletes cfg kv rest store txs st2 txs2 e hmem hndrest hsup hpos htxs hrun
        · rw [if_neg h2] at hrun
          cases h3 : getMerkleRoot f with
          | none => rw [h3] at hrun; exact absurd hrun (by simp)
          | some root =>
            rw [h3] at hrun
            refine sendGo_deletes cfg kv rest store (txs ++ [⟨f.header, f.totalRelays, root⟩])
              st2 txs2 e hmem hndrest hsup hpos ?_ hrun
            intro t ht
            rcases List.mem_append.1 ht with h4 | h4
            · exact htxs t h4
            · simp only [List.mem_singleton] at h4
              rw [h4]
              exact hfe

/-! ## Claim theorems -/

set_option maxRecDepth 1000000 in
/-- C1: the pseudorandom-challenge derivation does not equal the spec's
reference algorithm. At default parameters with block hash `[171]` at the
proof height, session header `hdrC1` and 1000 total relays, the spec's
reference algorithm hashes the serialized pair and returns index 601,
while the generator marshals the empty JSON object (its struct fields are
unexported) and then panics on the `ParseInt` range error over its
constant digest. -/
theorem claim_c1_generator_ignores_inputs_and_panics :
    generatePseudoRandomProof cfgC1 1000 hdrC1 = none ∧
    specPseudorandomChallenge cfgC1 1000 hdrC1 = 601 :=
  ⟨generatePseudoRandomProof_eq_none cfgC1 1000 hdrC1, by decide⟩

/-- C2: proof verification accepts no proof message at all — it panics
inside the pseudorandom index generation before reaching any of its four
checks, so no proof reaches the Merkle verification, token validation or
signature steps, and no error kind is ever returned. -/
theorem claim_c2_validate_proof_panics :
    validateProof cfgDefault proofMsgC2 claimMsgC2 = none := by
  unfold validateProof
  rw [generatePseudoRandomProof_eq_none]

/-- C3 counterexample: an evidence-store session on an unsupported chain
with zero total relays, whose claim already sits in the chain state, is
not deleted by the auto-claim pass — the pass completes and the entry
survives, contradicting the claim that every unsupported session is
deleted. -/
theorem claim_c3_counterexample :
    ¬ evidenceDroppedAndUnclaimed hdrC3 (sendUnverifiedProofs cfgAllUnsupported kvC3 [evC3]) := by
  intro hcl
  have hrun : sendUnverifiedProofs cfgAllUnsupported kvC3 [evC3] = some ([evC3], []) := rfl
  rw [hrun] at hcl
  exact hcl.1 evC3 (by simp) rfl

/-- C3 (amended): for every session held in the evidence store whose chain
is not supported at the session's block height and whose total relay count
is positive, a completed auto-claim pass leaves no evidence entry and
broadcasts no claim transaction for that session's header (assuming the
snapshot's headers are distinct, as they are for a map snapshot). -/
theorem claim_c3_amended_unsupported_positive_dropped (cfg : Config) (kv : List MsgProof)
    (store st2 : List Evidence) (txs2 : List ClaimTx) (e : Evidence)
    (hrun : sendUnverifiedProofs cfg kv store = some (st2, txs2))
    (hnd : (store.map Evidence.header).Nodup)
    (he : e ∈ store)
    (hsup : cfg.supported e.header.sessionBlockHeight e.header.chain = false)
    (hpos : 0 < e.totalRelays) :
    (∀ x ∈ st2, x.header ≠ e.header) ∧ (∀ t ∈ txs2, t.header ≠ e.header) :=
  sendGo_deletes cfg kv store store [] st2 txs2 e he hnd hsup hpos (by simp) hrun

/-- C3 witness: a concrete unsupported one-relay session is deleted by the
pass with no transaction broadcast. -/
theorem claim_c3_amended_witness :
    (∀ x ∈ ([] : List Evidence), x.header ≠ evC3w.header) ∧
    (∀ t ∈ ([] : List ClaimTx), t.header ≠ evC3w.header) :=
  claim_c3_amended_unsupported_positive_dropped cfgAllUnsupported [] [evC3w] [] [] evC3w rfl
    (by simp) (by simp) rfl (by decide)

/-- C4: `ProofIsReadyToClaim` is true exactly from
`sessionBlockHeight + proofWaitingPeriod * sessionFrequency` on (true at
height 175 for session block 100 with frequency 25 and waiting period 3,
false at 174) — but the driver's proof pass does not select the mature
claims: `GetMatureUnverifiedProofs` panics on its first stored entry,
because it hands the message to the binary decoder by value. -/
theorem claim_c4_maturity_boundary_and_selection_panic :
    proofIsReadyToClaim cfgDefault 175 100 = true ∧
    proofIsReadyToClaim cfgDefault 174 100 = false ∧
    getMatureUnverifiedProofs cfgDefault 175 [msgC4] = none :=
  ⟨by decide, by decide, rfl⟩

/-- C5: the expiry sweep does not delete an expired claim — with a stored
claim from session block 100 at height 10000 (age 396 sessions, far past
the expiration of 240), the sweep panics on decoding the first entry
(message passed by value) and removes nothing. -/
theorem claim_c5_expiry_sweep_panics :
    (10000 - msgC5.header.sessionBlockHeight).tdiv cfgDefault.sessionFrequency ≥
      cfgDefault.unverifiedProofExpiration ∧
    deleteExpiredUnverifiedProofs cfgDefault 10000 [msgC5] = none :=
  ⟨by decide, rfl⟩

set_option maxRecDepth 1000000 in
/-- C6: the auto-claim pass is not idempotent — for a supported,
not-yet-claimed one-relay session, a single pass broadcasts one claim
transaction and running the pass twice at the same height broadcasts two,
because broadcasting writes nothing to the KV store that the duplicate
check reads. -/
theorem claim_c6_second_invocation_rebroadcasts :
    (sendUnverifiedProofs cfgDefault [] [evC6]).map (fun p => p.2.length) = some 1 ∧
    (sendUnverifiedProofsTwice cfgDefault [] [evC6]).map (fun p => p.2.length) = some 2 :=
  ⟨rfl, rfl⟩

/-- C7: the pseudorandom-challenge derivation is a pure function of the
total relay count, the header, the session parameters and the block hash
at the proof height: two invocations agreeing on those inputs (the
configurations may differ elsewhere, e.g. in the supported-chain set)
yield the same result. -/
theorem claim_c7_generator_deterministic (cfg1 cfg2 : Config) (n1 n2 : Int) (h1 h2 : Header)
    (_hn : n1 = n2) (_hh : h1 = h2)
    (_hfreq : cfg1.sessionFrequency = cfg2.sessionFrequency)
    (_hwait : cfg1.proofWaitingPeriod = cfg2.proofWaitingPeriod)
    (_hbh : cfg1.blockHashAt (h1.sessionBlockHeight + cfg1.proofWaitingPeriod * cfg1.sessionFrequency) =
      cfg2.blockHashAt (h2.sessionBlockHeight + cfg2.proofWaitingPeriod * cfg2.sessionFrequency)) :
    generatePseudoRandomProof cfg1 n1 h1 = generatePseudoRandomProof cfg2 n2 h2 := by
  rw [generatePseudoRandomProof_eq_none, generatePseudoRandomProof_eq_none]

/-- C7 witness: two configurations differing only in their supported-chain
sets give the generator the same result at a concrete input. -/
theorem claim_c7_determinism_witness :
    generatePseudoRandomProof cfgC7a 9 hdrC7 = generatePseudoRandomProof cfgC7b 9 hdrC7 :=
  claim_c7_generator_deterministic cfgC7a cfgC7b 9 9 hdrC7 hdrC7 rfl rfl rfl rfl rfl

/-- C8: network-identifier validation succeeds exactly on strings of hex
digits decoding to 1 or 2 bytes, that is, on 2- or 4-character hex
strings. -/
theorem claim_c8_network_identifier_exact (s : String) :
    validateNetworkIdentifier s = Except.ok () ↔ specChainIdValid s = true := by
  unfold validateNetworkIdentifier specChainIdValid
  cases h : hexDecodeChars s.data with
  | none =>
    constructor
    · intro hk; exact absurd hk (by simp)
    · intro hr
      exfalso
      simp only [Bool.and_eq_true, Bool.or_eq_true, beq_iff_eq] at hr
      obtain ⟨hall, hlen⟩ := hr
      have heven : s.data.length % 2 = 0 := by omega
      have := hexDecodeChars_complete s.data hall heven
      rw [h] at this
      simp at this
  | some bs =>
    obtain ⟨hlen, hall⟩ := hexDecodeChars_sound s.data bs h
    simp only [hall, Bool.true_and, Bool.or_eq_true, beq_iff_eq, hlen]
    by_cases h0 : bs.length = 0
    · rw [if_pos h0]
      constructor
      · intro hk; exact absurd hk (by simp)
      · intro hr; omega
    · rw [if_neg h0]
      by_cases h2 : bs.length > networkIdentifierLength
      · rw [if_pos h2]
        constructor
        · intro hk; exact absurd hk (by simp)
        · intro hr
          exfalso
          have : networkIdentifierLength = 2 := rfl
          omega
      · rw [if_neg h2]
        have : networkIdentifierLength = 2 := rfl
        constructor
        · intro _; omega
        · intro _; rfl

/-- C9: the generator returns no index at all — at a positive relay count
it does not return a value in range, and at relay count 0 it does not
return 0; it panics on the `ParseInt` range error in both cases. -/
theorem claim_c9_no_index_returned :
    generatePseudoRandomProof cfgDefault 4 ⟨"a9", "0009", 75⟩ = none ∧
    generatePseudoRandomProof cfgDefault 0 ⟨"a9", "0009", 75⟩ = none :=
  ⟨generatePseudoRandomProof_eq_none _ _ _, generatePseudoRandomProof_eq_none _ _ _⟩

/-- C10: the JSON serialization of the generator payload does succeed (it
yields the constant empty object, its fields being unexported), but the
base-16 parse of the digest's full 16-character substring exceeds the
signed 64-bit range, so the parse-error panic branch is reached — on every
input. -/
theorem claim_c10_parse_panic_reached :
    marshalPseudorandomGenerator "ab".data (headerHashStringChars hdrC1) = strBytes "\x7b\x7d" ∧
    generatePseudoRandomProof cfgDefault 1000000 ⟨"a10", "0010", 125⟩ = none :=
  ⟨rfl, generatePseudoRandomProof_eq_none _ _ _⟩

end PocketCore
